import Mathlib

/-!
# Graphly: analysis-and-rendering pipeline, shallow embedding

A shallow embedding of `src/server.js`: the CSV-row data model, the embedded
pandas analysis snippet run by `analyzeData` (numeric coercion, `describe`,
`isnull().sum()`, `corr`), the JSON boundary back to JavaScript, and the
jsPDF/canvas report produced by `generatePDF` and `createCorrelationHeatmap`.

Modelling conventions:
* JavaScript/Python floating point numbers are modelled as exact rationals
  (`ℚ`); the square root appearing in the standard deviation and in Pearson
  coefficients is kept symbolic (`StatVal.sqrtNum`, `Coef`), since it is
  irrational in general.  IEEE NaN is modelled explicitly (`StatVal.nan`,
  `Option Coef` with `none` for an undefined coefficient).
* A parsed CSV record is an association list from column name to raw string.
  A cell is `Option String`: `none` models a key that is missing from a
  record, which `pd.DataFrame` materialises as NaN.  (`csv-parse` with
  `columns: true` always yields string values for the keys it emits.)
-/

instance {ε α : Type} [DecidableEq ε] [DecidableEq α] : DecidableEq (Except ε α) :=
  fun x y =>
    match x, y with
    | Except.ok a, Except.ok b =>
        if h : a = b then Decidable.isTrue (by rw [h])
        else Decidable.isFalse (by intro hh; cases hh; exact h rfl)
    | Except.error a, Except.error b =>
        if h : a = b then Decidable.isTrue (by rw [h])
        else Decidable.isFalse (by intro hh; cases hh; exact h rfl)
    | Except.ok _, Except.error _ => Decidable.isFalse (by intro hh; cases hh)
    | Except.error _, Except.ok _ => Decidable.isFalse (by intro hh; cases hh)

/-- A cell of the DataFrame built from the parsed rows: `some s` is a raw
string value, `none` is a missing key, which pandas fills with NaN. -/
abbrev Cell := Option String

/-- A parsed CSV record, as handed to `analyzeData`: an ordered mapping from
column name to raw string value. -/
abbrev Row := List (String × String)

/-- The value a record contributes to column `k`: the first binding of `k`,
or `none` (NaN) when the record has no such key.  Models the cell filling
of `pd.DataFrame(${JSON.stringify(data)})` in `src/server.js` line 56. -/
def Row.lookupCell (r : Row) (k : String) : Cell :=
  (r.find? (fun p => p.1 == k)).map Prod.snd

/-- Append a key to an accumulator unless already present (first occurrence
order, as Python dict/DataFrame column construction preserves it). -/
def insertIfNew (acc : List String) (k : String) : List String :=
  if k ∈ acc then acc else acc ++ [k]

/-- Column names of `pd.DataFrame(rows)`: keys in order of first appearance
across the records. -/
def dfColumnNames (rows : List Row) : List String :=
  rows.foldl (fun acc r => r.foldl (fun a p => insertIfNew a p.1) acc) []

/-- The DataFrame of `src/server.js` line 56 as ordered columns of cells:
each column lists, per record, the record's value for that key (or `none`). -/
def buildDF (rows : List Row) : List (String × List Cell) :=
  (dfColumnNames rows).map fun k => (k, rows.map fun r => r.lookupCell k)

/-- Numeric value of a digit run, most significant first. -/
def digitsVal (l : List Char) : Nat :=
  l.foldl (fun n c => 10 * n + (c.toNat - 48)) 0

/-- Parse an unsigned decimal literal `digits [. digits]` (at least one digit
overall).  Together with `parseNumeric` this models the literals accepted by
`pd.to_numeric` on the trimmed strings `csv-parse` produces; in particular
the empty string does **not** parse (pandas raises `Unable to parse string`
on it).  Exotic spellings (exponents, `inf`, `nan`) are outside the model. -/
def parseUnsigned (l : List Char) : Option ℚ :=
  let intPart := l.takeWhile Char.isDigit
  let rest := l.dropWhile Char.isDigit
  match rest with
  | [] => if intPart.isEmpty then none else some (digitsVal intPart : ℚ)
  | '.' :: frac =>
      if frac.all Char.isDigit ∧ ¬(intPart.isEmpty ∧ frac.isEmpty) then
        some ((digitsVal intPart : ℚ) + (digitsVal frac : ℚ) / (10 ^ frac.length : ℚ))
      else none
  | _ => none

/-- Parse a signed decimal literal, as `pd.to_numeric` accepts on a cell. -/
def parseNumeric (s : String) : Option ℚ :=
  match s.data with
  | '-' :: rest => (parseUnsigned rest).map (fun q => -q)
  | '+' :: rest => parseUnsigned rest
  | l => parseUnsigned l

/-- Convert one cell for `pd.to_numeric`: NaN passes through (`some none`),
a string must parse (`some (some q)`), otherwise conversion fails (`none`). -/
def cellToNum (c : Cell) : Option (Option ℚ) :=
  match c with
  | none => some none
  | some s => (parseNumeric s).map some

/-- A DataFrame column after the coercion loop of `src/server.js` lines
58–60: either fully converted to numbers (with NaN for absent cells), or
left as the original object column. -/
inductive ConvCol where
  | nums (vals : List (Option ℚ))
  | strs (vals : List Cell)
deriving DecidableEq

/-- Convert every cell of a column, failing if any single cell fails. -/
def toNumericCells : List Cell → Option (List (Option ℚ))
  | [] => some []
  | c :: rest =>
      match cellToNum c, toNumericCells rest with
      | some v, some vs => some (v :: vs)
      | _, _ => none

/-- `pd.to_numeric(df[col], errors='ignore')`: convert the whole column if
every cell converts, otherwise return the column unchanged (`errors='ignore'`
swallows the `ValueError` and keeps the input). -/
def toNumericIgnore (cells : List Cell) : ConvCol :=
  match toNumericCells cells with
  | some vs => ConvCol.nums vs
  | none => ConvCol.strs cells

/-- Inferred dtype reported by `df.dtypes`; `numeric` stands for both `int64`
and `float64` (the claims and spec only distinguish numeric from text). -/
inductive Dtype where
  | numeric
  | object
deriving DecidableEq

/-- The dtype of a converted column. -/
def ConvCol.dtype : ConvCol → Dtype
  | ConvCol.nums _ => Dtype.numeric
  | ConvCol.strs _ => Dtype.object

/-- `df[col].isnull().sum()`: on either kind of column exactly the cells that
came from missing keys (NaN) are null; raw strings, including `""`, are not. -/
def ConvCol.isnullCount : ConvCol → Nat
  | ConvCol.nums vs => vs.countP (fun v => v.isNone)
  | ConvCol.strs vs => vs.countP (fun v => v.isNone)

/-- The DataFrame after the per-column coercion loop. -/
def convertDF (rows : List Row) : List (String × ConvCol) :=
  (buildDF rows).map fun p => (p.1, toNumericIgnore p.2)

/-- `df.select_dtypes(include=[np.number])`: the numeric columns with their
converted values, in column order. -/
def numericColsOf (cols : List (String × ConvCol)) : List (String × List (Option ℚ)) :=
  cols.filterMap fun p =>
    match p.2 with
    | ConvCol.nums vs => some (p.1, vs)
    | ConvCol.strs _ => none

/-- Mean of a list of rationals (`sum / len`; callers guard emptiness). -/
def qmean (l : List ℚ) : ℚ := l.sum / (l.length : ℚ)

/-- Sample variance with `ddof = 1`, as `df.describe`'s `std` squares it. -/
def sampleVar (l : List ℚ) : ℚ :=
  ((l.map (fun x => (x - qmean l) ^ 2)).sum) / ((l.length : ℚ) - 1)

/-- Insertion into a sorted list, for the percentile computation. -/
def insertSorted (x : ℚ) : List ℚ → List ℚ
  | [] => [x]
  | y :: ys => if x ≤ y then x :: y :: ys else y :: insertSorted x ys

/-- Sort ascending (insertion sort). -/
def sortQ (l : List ℚ) : List ℚ := l.foldr insertSorted []

/-- Linear-interpolation quantile of a sorted non-empty list, pandas'
default `describe` percentile method. -/
def quantile (l : List ℚ) (p : ℚ) : ℚ :=
  let pos := p * ((l.length : ℚ) - 1)
  let k := (⌊pos⌋).toNat
  let frac := pos - (⌊pos⌋ : ℚ)
  let vk := l.getD k 0
  let vk1 := l.getD (k + 1) vk
  vk + frac * (vk1 - vk)

/-- A scalar inside the serialized analysis result.  `num` is an exactly
representable float, `sqrtNum x` is the (finite, irrational in general)
square root of `x ≥ 0` — used for the standard deviation — `str` a string
(the `top` entry of an object describe), `nan` an IEEE NaN. -/
inductive StatVal where
  | num (x : ℚ)
  | sqrtNum (x : ℚ)
  | str (s : String)
  | nan
deriving DecidableEq

/-- `describe()` row for a numeric column, over its non-NaN values:
count, mean, std (NaN when fewer than two values), min, quartiles, max. -/
def numericDescribe (l : List ℚ) : List (String × StatVal) :=
  let n := l.length
  if n = 0 then
    [("count", StatVal.num 0), ("mean", StatVal.nan), ("std", StatVal.nan),
     ("min", StatVal.nan), ("25%", StatVal.nan), ("50%", StatVal.nan),
     ("75%", StatVal.nan), ("max", StatVal.nan)]
  else
    let s := sortQ l
    [("count", StatVal.num (n : ℚ)),
     ("mean", StatVal.num (qmean l)),
     ("std", if n = 1 then StatVal.nan else StatVal.sqrtNum (sampleVar l)),
     ("min", StatVal.num (s.headD 0)),
     ("25%", StatVal.num (quantile s (1/4))),
     ("50%", StatVal.num (quantile s (1/2))),
     ("75%", StatVal.num (quantile s (3/4))),
     ("max", StatVal.num (s.getLastD 0))]

/-- Multiplicity of `x` in `l`. -/
def countOcc (l : List String) (x : String) : Nat := l.countP (fun y => y = x)

/-- A most frequent value of `l` (pandas' `top`); `none` when empty. -/
def modeFirst (l : List String) : Option String :=
  l.foldl
    (fun best x =>
      match best with
      | none => some x
      | some b => if countOcc l b < countOcc l x then some x else best)
    none

/-- `describe()` row for an object column (pandas falls back to these when
the frame has no numeric columns): count, unique, top, freq over the
non-null values. -/
def objectDescribe (cells : List Cell) : List (String × StatVal) :=
  let present := cells.filterMap id
  [("count", StatVal.num (present.length : ℚ)),
   ("unique", StatVal.num (present.dedup.length : ℚ)),
   ("top", match modeFirst present with
           | some s => StatVal.str s
           | none => StatVal.nan),
   ("freq", match modeFirst present with
            | some s => StatVal.num (countOcc present s : ℚ)
            | none => StatVal.nan)]

/-- `df.describe().to_dict()` (`src/server.js` line 62): when at least one
numeric column exists only the numeric columns are described; when none
exists pandas describes the object columns instead.  (The `nums` branch of
the fallback is unreachable: the guard says there are no numeric columns.) -/
def describeDF (cols : List (String × ConvCol)) :
    List (String × List (String × StatVal)) :=
  let numCols := numericColsOf cols
  if numCols.isEmpty then
    cols.map fun p =>
      (p.1,
        match p.2 with
        | ConvCol.strs vs => objectDescribe vs
        | ConvCol.nums vs => objectDescribe (vs.map (fun v => v.map (fun q => toString q))))
  else
    numCols.map fun p => (p.1, numericDescribe (p.2.filterMap id))

/-- The rows where both columns have a present value — pandas `corr` is
pairwise-complete. -/
def pairComplete : List (Option ℚ) → List (Option ℚ) → List (ℚ × ℚ)
  | some a :: xs, some b :: ys => (a, b) :: pairComplete xs ys
  | _ :: xs, _ :: ys => pairComplete xs ys
  | _, _ => []

/-- The pairwise-complete values of both columns, centered on their means
over that common subset. -/
def centeredPairs (xs ys : List (Option ℚ)) : List (ℚ × ℚ) :=
  let ps := pairComplete xs ys
  let mx := qmean (ps.map Prod.fst)
  let my := qmean (ps.map Prod.snd)
  ps.map fun p => (p.1 - mx, p.2 - my)

/-- A defined Pearson coefficient, kept symbolically: its value is
`sxy / √(sxx * syy)` (see `Coef.val`). -/
structure Coef where
  sxy : ℚ
  sxx : ℚ
  syy : ℚ
deriving DecidableEq

/-- The real value of a coefficient. -/
noncomputable def Coef.val (c : Coef) : ℝ :=
  (c.sxy : ℝ) / Real.sqrt ((c.sxx : ℝ) * (c.syy : ℝ))

/-- Pearson correlation of two columns over their pairwise-complete rows,
as pandas `DataFrame.corr` computes it: `none` (NaN) when either centered
sum of squares vanishes (zero variance on the common subset, which includes
the cases of no or a single common row). -/
def corrOf (xs ys : List (Option ℚ)) : Option Coef :=
  let cps := centeredPairs xs ys
  let sxx := (cps.map (fun p => p.1 ^ 2)).sum
  let syy := (cps.map (fun p => p.2 ^ 2)).sum
  let sxy := (cps.map (fun p => p.1 * p.2)).sum
  if sxx = 0 ∨ syy = 0 then none else some ⟨sxy, sxx, syy⟩

/-- `df[numeric_columns].corr().to_dict()`: outer key = column, inner key =
index row; entry `(c₁, c₂)` is the coefficient between `c₂` and `c₁`. -/
def corrMatrix (nums : List (String × List (Option ℚ))) :
    List (String × List (String × Option Coef)) :=
  nums.map fun p => (p.1, nums.map fun q => (q.1, corrOf q.2 p.2))

/-- Centered sum of squares of a value list (`n · variance`); used to state
zero-variance hypotheses. -/
def centeredSS (l : List ℚ) : ℚ := (l.map (fun x => (x - qmean l) ^ 2)).sum

/-- The Python-side analysis result, before `json.dumps`/`JSON.parse`
(`src/server.js` lines 62–74). -/
structure PyAnalysis where
  summary : List (String × List (String × StatVal))
  column_types : List (String × Dtype)
  missing_values : List (String × Nat)
  correlations : List (String × List (String × Option Coef))
deriving DecidableEq

/-- The pandas part of `analyzeData` (`src/server.js` lines 51–77):
`describe` raises on a frame without columns, otherwise the four parts are
assembled; the correlation matrix is computed only when more than one
numeric column exists. -/
def analyzeDataPy (rows : List Row) : Except String PyAnalysis :=
  let cols := convertDF rows
  if cols.isEmpty then
    Except.error "ValueError: Cannot describe a DataFrame without columns"
  else
    let nums := numericColsOf cols
    Except.ok
      { summary := describeDF cols
        column_types := cols.map fun p => (p.1, p.2.dtype)
        missing_values := cols.map fun p => (p.1, p.2.isnullCount)
        correlations := if 1 < nums.length then corrMatrix nums else [] }

/-- Whether the serialized result contains an IEEE NaN.  Python's
`json.dumps` renders NaN as the bare token `NaN`, which `JSON.parse` on the
JavaScript side rejects. -/
def pyHasNaN (r : PyAnalysis) : Bool :=
  r.summary.any (fun p => p.2.any (fun q => q.2 = StatVal.nan)) ||
  r.correlations.any (fun p => p.2.any (fun q => q.2.isNone))

/-- A JSON scalar as `generatePDF` receives it: a number or a string. -/
inductive JsVal where
  | num (x : ℚ)
  | str (s : String)
deriving DecidableEq

/-- The JavaScript-side analysis object, after `JSON.parse`
(`src/server.js` line 79). -/
structure JsAnalysis where
  summary : List (String × List (String × JsVal))
  column_types : List (String × String)
  missing_values : List (String × Nat)
  correlations : List (String × List (String × ℚ))
deriving DecidableEq

/-- The dtype string `df.dtypes.astype(str)` reports; the model collapses
`int64`/`float64` to the representative `"float64"`. -/
def dtypeName : Dtype → String
  | Dtype.numeric => "float64"
  | Dtype.object => "object"

/-- Decimal reading of one finite Python float.  `fs` interprets the
irrational `sqrtNum` values (standard deviations); `num` and `str` survive
the JSON round trip unchanged.  (`nan` never reaches this function: the
round trip fails first; the `0` is a dead default.) -/
def statToJs (fs : ℚ → ℚ) : StatVal → JsVal
  | StatVal.num x => JsVal.num x
  | StatVal.sqrtNum x => JsVal.num (fs x)
  | StatVal.str s => JsVal.str s
  | StatVal.nan => JsVal.num 0

/-- `json.dumps` on the Python side followed by `JSON.parse` on the
JavaScript side: fails exactly when a NaN occurs anywhere (Python emits the
non-JSON token `NaN`); otherwise rebuilds the same structure with numbers.
`fs` and `fc` abstract the decimal readings of the irrational standard
deviations and Pearson coefficients (the dead `0` is never taken). -/
def jsonRoundTrip (fs : ℚ → ℚ) (fc : Coef → ℚ) (r : PyAnalysis) : Option JsAnalysis :=
  if pyHasNaN r then none
  else
    some
      { summary := r.summary.map fun p => (p.1, p.2.map fun q => (q.1, statToJs fs q.2))
        column_types := r.column_types.map fun p => (p.1, dtypeName p.2)
        missing_values := r.missing_values
        correlations := r.correlations.map fun p =>
          (p.1, p.2.map fun q =>
            (q.1, match q.2 with
                  | some c => fc c
                  | none => 0)) }

/-- The whole of `analyzeData` (`src/server.js` lines 46–84): run the pandas
snippet, then `JSON.parse` its `json.dumps` output.  Any error is rethrown
to the HTTP handler. -/
def analyzeData (fs : ℚ → ℚ) (fc : Coef → ℚ) (rows : List Row) :
    Except String JsAnalysis :=
  Except.bind (analyzeDataPy rows) fun r =>
    match jsonRoundTrip fs fc r with
    | none => Except.error "SyntaxError: Unexpected token N in JSON"
    | some a => Except.ok a

/-- `value.toFixed(2)`: round half away from zero to two decimals and print
with exactly two digits after the point (the sign, integer digits, a dot,
then two decimal digits). -/
def toFixed2 (q : ℚ) : String :=
  let n : ℤ := ⌊|q| * 100 + 1 / 2⌋
  let r : ℕ := (n % 100).toNat
  (if q < 0 then "-" else "") ++ toString (n / 100) ++ "." ++
    String.mk [Nat.digitChar (r / 10), Nat.digitChar (r % 10)]

/-- `typeof value === 'number' ? value.toFixed(2) : value`
(`src/server.js` line 105). -/
def jsRender : JsVal → String
  | JsVal.num x => toFixed2 x
  | JsVal.str s => s

/-- An element of the jsPDF document: a text run (string, x, y, font size)
or the embedded heatmap raster. -/
inductive DocElem where
  | text (s : String) (x y fontSize : ℚ)
  | image (x y w h : ℚ)
deriving DecidableEq

/-- The inner loop of the summary section: one line `  stat: value` per
statistic, advancing the cursor by 5 per line. -/
def statLines : List (String × JsVal) → ℚ → List DocElem × ℚ
  | [], y => ([], y)
  | p :: rest, y =>
      let r := statLines rest (y + 5)
      (DocElem.text ("  " ++ p.1 ++ ": " ++ jsRender p.2) 10 y 12 :: r.1, r.2)

/-- The outer loop of the summary section (`src/server.js` lines 101–109):
per column a `column:` line, its statistic lines, and a gap of 5. -/
def summaryBlock : List (String × List (String × JsVal)) → ℚ → List DocElem × ℚ
  | [], y => ([], y)
  | p :: rest, y =>
      let inner := statLines p.2 (y + 5)
      let r := summaryBlock rest (inner.2 + 5)
      (DocElem.text (p.1 ++ ":") 10 y 12 :: (inner.1 ++ r.1), r.2)

/-- The column-types and missing-values loops: one `name: value` line per
entry, advancing by 5. -/
def kvLines : List (String × String) → ℚ → List DocElem × ℚ
  | [], y => ([], y)
  | p :: rest, y =>
      let r := kvLines rest (y + 5)
      (DocElem.text (p.1 ++ ": " ++ p.2) 10 y 12 :: r.1, r.2)

/-- The shared red/green channel of `getCorrelationColor`
(`src/server.js` lines 193–194): `Math.floor(255 * (1 - Math.abs(value)))`. -/
def corrChannelRG (value : ℚ) : ℤ := ⌊(255 : ℚ) * (1 - |value|)⌋

/-- `getCorrelationColor` (`src/server.js` lines 192–197): blue is constant
255, red and green fade with `|value|`; the sign is not encoded. -/
def getCorrelationColor (value : ℚ) : String :=
  "rgb(" ++ toString (corrChannelRG value) ++ "," ++ toString (corrChannelRG value) ++ ",255)"

/-- `Math.min(500 / columns.length, 50)` (`src/server.js` line 154). -/
def cellSizeOf (n : ℕ) : ℚ := min (500 / (n : ℚ)) 50

/-- One heatmap cell: its rectangle, fill color, and centered coefficient
label. -/
structure HeatCell where
  x : ℚ
  y : ℚ
  size : ℚ
  color : String
  label : String
  labelX : ℚ
  labelY : ℚ
deriving DecidableEq

/-- An axis label of the heatmap (drawn once per column on each axis). -/
structure AxisLabel where
  name : String
  x : ℚ
  y : ℚ
deriving DecidableEq

/-- The rendered heatmap raster. -/
structure Heatmap where
  width : ℚ
  height : ℚ
  cellSize : ℚ
  cells : List HeatCell
  rowLabels : List AxisLabel
  colLabels : List AxisLabel
deriving DecidableEq

/-- `correlations[col1][col2]` as the heatmap reads it; the matrices the
pipeline produces are total, so the `0` default is never taken. -/
def corrValueAt (corr : List (String × List (String × ℚ))) (c1 c2 : String) : ℚ :=
  ((corr.lookup c1).bind fun inner => inner.lookup c2).getD 0

/-- `createCorrelationHeatmap` (`src/server.js` lines 149–190): a 600×400
canvas; for each pair `(i, col1)`, `(j, col2)` a `cellSize` square at
`(80 + i·cs, 50 + j·cs)` filled with `getCorrelationColor` and labelled with
the coefficient `toFixed(2)` at the cell's center; row labels on the left,
rotated column labels on top. -/
def createCorrelationHeatmap (corr : List (String × List (String × ℚ))) : Heatmap :=
  let columns := corr.map Prod.fst
  let cs := cellSizeOf columns.length
  let xOff : ℚ := 80
  let yOff : ℚ := 50
  { width := 600
    height := 400
    cellSize := cs
    cells :=
      (columns.enum.map fun pi =>
        columns.enum.map fun pj =>
          let v := corrValueAt corr pi.2 pj.2
          { x := xOff + (pi.1 : ℚ) * cs
            y := yOff + (pj.1 : ℚ) * cs
            size := cs
            color := getCorrelationColor v
            label := toFixed2 v
            labelX := xOff + ((pi.1 : ℚ) + 1/2) * cs
            labelY := yOff + ((pj.1 : ℚ) + 1/2) * cs } ).flatten
    rowLabels := columns.enum.map fun pi =>
      { name := pi.2, x := xOff - 5, y := yOff + ((pi.1 : ℚ) + 1/2) * cs }
    colLabels := columns.enum.map fun pi =>
      { name := pi.2, x := xOff + ((pi.1 : ℚ) + 1/2) * cs, y := yOff - 5 } }

/-- `generatePDF` (`src/server.js` lines 86–147): title, summary statistics,
column types, missing values, and — only when the correlation object is
non-empty — the heatmap section with the embedded raster. -/
def generatePDF (a : JsAnalysis) : List DocElem :=
  let y0 : ℚ := 10
  let y1 := y0 + 15
  let y2 := y1 + 10
  let sb := summaryBlock a.summary y2
  let y4 := sb.2 + 10
  let tb := kvLines a.column_types (y4 + 10)
  let y6 := tb.2 + 10
  let mb := kvLines (a.missing_values.map fun p => (p.1, toString p.2)) (y6 + 10)
  let tail :=
    if 0 < a.correlations.length then
      let y8 := mb.2 + 10
      [DocElem.text "Correlation Heatmap" 10 y8 16,
       DocElem.image 10 (y8 + 10) 190 100]
    else []
  DocElem.text "Data Analysis Report" 105 y0 20 ::
    DocElem.text "Summary Statistics" 10 y1 16 :: (sb.1 ++
      (DocElem.text "Column Types" 10 y4 16 :: (tb.1 ++
        (DocElem.text "Missing Values" 10 y6 16 :: (mb.1 ++ tail)))))

/-- The texts of the 16-point section headings, in document order. -/
def sectionHeadings (d : List DocElem) : List String :=
  d.filterMap fun e =>
    match e with
    | DocElem.text s _ _ fs => if fs = 16 then some s else none
    | DocElem.image _ _ _ _ => none

/-- Is this element an embedded raster? -/
def DocElem.isImage : DocElem → Bool
  | DocElem.image _ _ _ _ => true
  | DocElem.text _ _ _ _ => false

/-- The full pipeline behind `/api/analyze`: analysis then PDF composition;
an error anywhere aborts with no document bytes. -/
def pipeline (fs : ℚ → ℚ) (fc : Coef → ℚ) (rows : List Row) :
    Except String (List DocElem) :=
  (analyzeData fs fc rows).map generatePDF

/-- Entry lookup in a correlation matrix (outer key, then inner key). -/
def corrAt (m : List (String × List (String × Option Coef))) (a b : String) :
    Option (Option Coef) :=
  (m.lookup a).bind fun inner => inner.lookup b

/-- Does this string end in a dot followed by exactly two digits (the shape
`toFixed(2)` guarantees)? -/
def endsTwoDecimals (s : String) : Bool :=
  match s.data.reverse with
  | d2 :: d1 :: '.' :: _ => d1.isDigit && d2.isDigit
  | _ => false

/-! Concrete inputs used to exercise the pipeline. -/

/-- Two perfectly correlated numeric columns (the spec's end-to-end
scenario): `a = 1,2,3`, `b = 2,4,6`. -/
def rowsAB : List Row :=
  [[("a", "1"), ("b", "2")], [("a", "2"), ("b", "4")], [("a", "3"), ("b", "6")]]

/-- A numeric column next to a constant (zero-variance) numeric column. -/
def rowsConst : List Row :=
  [[("a", "1"), ("b", "1")], [("a", "2"), ("b", "1")], [("a", "3"), ("b", "1")]]

/-- Two text records with inconsistent key sets. -/
def rowsRagged : List Row := [[("a", "x")], [("b", "y")]]

/-- A single all-text column. -/
def rowsText : List Row := [[("a", "x")]]

/-- Two numeric columns, both of nonzero variance over their present
values, whose pairwise-complete subset is constant in `a`: `a = 1,1,2`,
`b = 5,6,absent`. -/
def rowsPairwise : List Row :=
  [[("a", "1"), ("b", "5")], [("a", "1"), ("b", "6")], [("a", "2")]]

/-- A numeric column and a text column. -/
def rowsMixed : List Row :=
  [[("a", "1"), ("b", "x")], [("a", "3"), ("b", "y")]]

/-! ## Helper lemmas -/

theorem toNumericCells_isSome (cells : List Cell) :
    (toNumericCells cells).isSome = cells.all fun c => (cellToNum c).isSome := by
  induction cells with
  | nil => rfl
  | cons c rest ih =>
      cases hc : cellToNum c with
      | none => simp [toNumericCells, hc]
      | some v =>
          cases hr : toNumericCells rest with
          | none => simp [toNumericCells, hc, hr, ← ih]
          | some vs => simp [toNumericCells, hc, hr, ← ih]

theorem toNumericCells_countP (cells : List Cell) (vs : List (Option ℚ))
    (h : toNumericCells cells = some vs) :
    vs.countP (fun v => v.isNone) = cells.countP (fun c => c.isNone) := by
  induction cells generalizing vs with
  | nil =>
      simp only [toNumericCells, Option.some.injEq] at h
      subst h; rfl
  | cons c rest ih =>
      rw [toNumericCells] at h
      cases hc : cellToNum c with
      | none => rw [hc] at h; cases h
      | some v =>
          cases hr : toNumericCells rest with
          | none => rw [hc, hr] at h; cases h
          | some ws =>
              rw [hc, hr] at h
              simp only [Option.some.injEq] at h
              subst h
              have hv : v.isNone = c.isNone := by
                cases c with
                | none => simp [cellToNum] at hc; subst hc; rfl
                | some s =>
                    simp only [cellToNum] at hc
                    cases hp : parseNumeric s with
                    | none => rw [hp] at hc; cases hc
                    | some q => rw [hp] at hc; simp at hc; subst hc; rfl
              simp [List.countP_cons, hv, ih ws hr]

theorem isnullCount_toNumericIgnore (cells : List Cell) :
    (toNumericIgnore cells).isnullCount = cells.countP (fun c => c.isNone) := by
  rw [toNumericIgnore]
  cases h : toNumericCells cells with
  | none => rfl
  | some vs => exact toNumericCells_countP cells vs h

/-! ## C1: per-column numeric typing policy -/

/-- C1, counterexample: the claim's own test case `["1","2",""]` is *not*
typed numeric with one missing value.  `pd.to_numeric` cannot parse the
empty string, so with `errors='ignore'` the whole column stays `object`,
and the blank cell is a present string, hence not counted as null. -/
theorem blank_value_counterexample :
    (toNumericIgnore [some "1", some "2", some ""]).dtype = Dtype.object ∧
      (toNumericIgnore [some "1", some "2", some ""]).isnullCount = 0 := by
  decide

/-- C1, amended: a column is typed numeric iff every value present as a
string — including the empty string — parses as a number.  Truly absent
cells (missing keys, NaN) do not block coercion; blank strings are not
treated as absent: a blank blocks numeric coercion and is not counted as
missing. -/
theorem column_typing_policy (cells : List Cell) :
    ((toNumericIgnore cells).dtype = Dtype.numeric ↔
      ∀ s : String, some s ∈ cells → (parseNumeric s).isSome = true) ∧
    (toNumericIgnore cells).isnullCount = cells.countP (fun c => c.isNone) ∧
    (parseNumeric "").isSome = false := by
  refine ⟨?_, isnullCount_toNumericIgnore cells, by decide⟩
  have hall := toNumericCells_isSome cells
  constructor
  · intro h s hs
    cases hcase : toNumericCells cells with
    | none => rw [toNumericIgnore, hcase] at h; cases h
    | some vs =>
        have hsome : (toNumericCells cells).isSome = true := by rw [hcase]; rfl
        rw [hall, List.all_eq_true] at hsome
        have := hsome (some s) hs
        simpa [cellToNum, Option.isSome_map] using this
  · intro h
    cases hcase : toNumericCells cells with
    | none =>
        exfalso
        have hfalse : (toNumericCells cells).isSome = false := by rw [hcase]; rfl
        rw [hall, List.all_eq_false] at hfalse
        rcases hfalse with ⟨c, hc, hfail⟩
        cases c with
        | none => simp [cellToNum] at hfail
        | some s =>
            exact hfail (by simpa [cellToNum, Option.isSome_map] using h s hc)
    | some vs => rw [toNumericIgnore, hcase]; rfl

/-- C1, witness: a column with two numeric strings and one truly absent
cell is typed numeric and counts exactly that absent cell as missing. -/
theorem column_typing_policy_witness :
    (toNumericIgnore [some "1", some "2", none]).dtype = Dtype.numeric ∧
      (toNumericIgnore [some "1", some "2", none]).isnullCount = 1 :=
  ⟨(column_typing_policy [some "1", some "2", none]).1.mpr
      (by intro s hs; simp at hs; rcases hs with rfl | rfl <;> decide),
   ((column_typing_policy [some "1", some "2", none]).2.1).trans (by decide)⟩

/-! ## C2: missing-value counts -/

/-- C2: for every table with at least one column, the analysis succeeds up
to the missing-value computation and `missing_values` has exactly one entry
per column of the DataFrame — numeric and text alike, in column order —
whose count is the number of absent cells (cells with no data; a parsed
zero or an empty string is a present value and is not counted). -/
theorem missing_values_per_column (rows : List Row)
    (h : (convertDF rows).isEmpty = false) :
    ∃ r : PyAnalysis, analyzeDataPy rows = Except.ok r ∧
      r.missing_values =
        ((buildDF rows).map fun p => (p.1, p.2.countP (fun c => c.isNone))) ∧
      r.missing_values.map Prod.fst = dfColumnNames rows := by
  have hok : analyzeDataPy rows = Except.ok
      { summary := describeDF (convertDF rows)
        column_types := (convertDF rows).map fun p => (p.1, p.2.dtype)
        missing_values := (convertDF rows).map fun p => (p.1, p.2.isnullCount)
        correlations :=
          if 1 < (numericColsOf (convertDF rows)).length then
            corrMatrix (numericColsOf (convertDF rows))
          else [] } := by
    rw [analyzeDataPy]
    simp only [h, Bool.false_eq_true, if_false]
  refine ⟨_, hok, ?_, ?_⟩
  · show (convertDF rows).map (fun p => (p.1, p.2.isnullCount)) = _
    rw [convertDF, List.map_map]
    congr 1
    funext p
    show (p.1, (toNumericIgnore p.2).isnullCount) = _
    rw [isnullCount_toNumericIgnore]
  · show ((convertDF rows).map (fun p => (p.1, p.2.isnullCount))).map Prod.fst = _
    rw [convertDF, List.map_map, List.map_map, buildDF, List.map_map]
    simp [Function.comp_def]

/-- C2, witness: on the table `a = 1,1,2`, `b = 5,6,absent` the missing
counts are 0 for `a` and 1 for `b`. -/
theorem missing_values_per_column_witness :
    ∃ r : PyAnalysis, analyzeDataPy rowsPairwise = Except.ok r ∧
      r.missing_values = [("a", 0), ("b", 1)] := by
  obtain ⟨r, hok, hmv, _⟩ := missing_values_per_column rowsPairwise (by decide)
  exact ⟨r, hok, hmv.trans (by decide)⟩

/-! ## C4: which columns the summary describes -/

/-- C4, counterexample: a table consisting of one text column still gets a
summary entry — `df.describe()` falls back to describing object columns
(count/unique/top/freq) when no numeric column exists, so text columns are
not absent from the summary mapping in that case. -/
theorem text_summary_counterexample :
    (analyzeDataPy rowsText).map (fun r => r.summary.map Prod.fst) = Except.ok ["a"] ∧
    (analyzeDataPy rowsText).map (fun r => r.summary.map fun p => p.2.map Prod.fst)
      = Except.ok [["count", "unique", "top", "freq"]] := by
  decide

theorem numericDescribe_statNames (l : List ℚ) :
    (numericDescribe l).map Prod.fst =
      ["count", "mean", "std", "min", "25%", "50%", "75%", "max"] := by
  by_cases h : l.length = 0 <;> simp [numericDescribe, h]

/-- C4, amended: when the table has at least one numeric column, the summary
has exactly the numeric columns as entries, each carrying count, mean, std,
min, the three quartiles and max, and text columns are absent; when the
table has no numeric column at all, pandas' describe falls back to the
object statistics and the summary instead lists every (text) column with
count, unique, top and freq. -/
theorem summary_describes_numeric (rows : List Row)
    (h : (convertDF rows).isEmpty = false) :
    ∃ r : PyAnalysis, analyzeDataPy rows = Except.ok r ∧
      (¬(numericColsOf (convertDF rows)).isEmpty = true →
        r.summary.map Prod.fst = (numericColsOf (convertDF rows)).map Prod.fst ∧
        ∀ p ∈ r.summary,
          p.2.map Prod.fst = ["count", "mean", "std", "min", "25%", "50%", "75%", "max"]) ∧
      ((numericColsOf (convertDF rows)).isEmpty = true →
        r.summary.map Prod.fst = (convertDF rows).map Prod.fst ∧
        ∀ p ∈ r.summary, p.2.map Prod.fst = ["count", "unique", "top", "freq"]) := by
  have hok : analyzeDataPy rows = Except.ok
      { summary := describeDF (convertDF rows)
        column_types := (convertDF rows).map fun p => (p.1, p.2.dtype)
        missing_values := (convertDF rows).map fun p => (p.1, p.2.isnullCount)
        correlations :=
          if 1 < (numericColsOf (convertDF rows)).length then
            corrMatrix (numericColsOf (convertDF rows))
          else [] } := by
    rw [analyzeDataPy]
    simp only [h, Bool.false_eq_true, if_false]
  refine ⟨_, hok, ?_, ?_⟩
  · intro hnum
    rw [Bool.not_eq_true] at hnum
    constructor
    · show (describeDF (convertDF rows)).map Prod.fst = _
      rw [describeDF]
      simp only [hnum, Bool.false_eq_true, if_false, List.map_map]
      rfl
    · intro p hp
      rw [describeDF] at hp
      simp only [hnum, Bool.false_eq_true, if_false, List.mem_map] at hp
      obtain ⟨q, _, rfl⟩ := hp
      exact numericDescribe_statNames _
  · intro hnum
    constructor
    · show (describeDF (convertDF rows)).map Prod.fst = _
      rw [describeDF]
      simp only [hnum, if_true, List.map_map]
      rfl
    · intro p hp
      rw [describeDF] at hp
      simp only [hnum, if_true, List.mem_map] at hp
      obtain ⟨q, _, rfl⟩ := hp
      cases q.2 <;> rfl

/-- C4, witness: in a table with a numeric column `a` and a text column `b`
the summary describes exactly `a`, with the eight numeric statistics. -/
theorem summary_describes_numeric_witness :
    ∃ r : PyAnalysis, analyzeDataPy rowsMixed = Except.ok r ∧
      r.summary.map Prod.fst = ["a"] := by
  obtain ⟨r, hok, hnum, _⟩ := summary_describes_numeric rowsMixed (by decide)
  exact ⟨r, hok, ((hnum (by decide)).1).trans (by decide)⟩

/-! ## C5: what fails, where, and what propagates -/

/-- C5, counterexample: records with inconsistent key sets do not make the
table build fail — the whole pipeline runs and produces document bytes (the
missing keys simply become absent cells). -/
theorem ragged_rows_counterexample :
    (pipeline (fun x => x) (fun _ => 0) rowsRagged).isOk = true := by
  decide

/-- C5, amended: there is no schema validation and no typed error taxonomy.
A zero-row input builds a DataFrame with no columns and fails only in
analysis, with pandas' describe `ValueError`; that error propagates
unchanged through the pipeline, which then produces no document bytes.
Any error raised by the analysis stage propagates unchanged to the
pipeline caller; rows with inconsistent key sets are not an error. -/
theorem error_propagation :
    (∀ fs fc, pipeline fs fc [] =
        Except.error "ValueError: Cannot describe a DataFrame without columns") ∧
    (∀ fs fc rows e, analyzeData fs fc rows = Except.error e →
        pipeline fs fc rows = Except.error e) ∧
    (analyzeDataPy rowsRagged).isOk = true := by
  refine ⟨fun fs fc => rfl, ?_, by decide⟩
  intro fs fc rows e hmatch
  rw [pipeline, hmatch]
  rfl

/-- C5, witness: at the empty input, the analysis error is exactly what the
pipeline returns. -/
theorem error_propagation_witness :
    pipeline (fun x => x) (fun _ => 0) [] =
      Except.error "ValueError: Cannot describe a DataFrame without columns" :=
  error_propagation.2.1 (fun x => x) (fun _ => 0) []
    "ValueError: Cannot describe a DataFrame without columns" (by decide)

/-! ## Report layout lemmas -/

theorem digitChar_isDigit (k : Nat) (h : k ≤ 9) : (Nat.digitChar k).isDigit = true := by
  interval_cases k <;> decide

/-- `toFixed(2)` output always ends in a dot followed by two digits. -/
theorem endsTwoDecimals_toFixed2 (q : ℚ) : endsTwoDecimals (toFixed2 q) = true := by
  have hnn : (0 : ℤ) ≤ ⌊|q| * 100 + 1/2⌋ % 100 := Int.emod_nonneg _ (by norm_num)
  have hlt : ⌊|q| * 100 + 1/2⌋ % 100 < 100 := Int.emod_lt_of_pos _ (by norm_num)
  have h1 : (Nat.digitChar ((⌊|q| * 100 + 1/2⌋ % 100).toNat / 10)).isDigit = true :=
    digitChar_isDigit _ (by omega)
  have h2 : (Nat.digitChar ((⌊|q| * 100 + 1/2⌋ % 100).toNat % 10)).isDigit = true :=
    digitChar_isDigit _ (by omega)
  rw [toFixed2, endsTwoDecimals]
  simp only [String.data_append]
  simp only [one_div] at h1 h2
  simp [List.reverse_append, h1, h2]

theorem statLines_mem (stats : List (String × JsVal)) (y0 : ℚ) :
    ∀ e ∈ (statLines stats y0).1, ∃ nm v yy, (nm, v) ∈ stats ∧
      e = DocElem.text ("  " ++ nm ++ ": " ++ jsRender v) 10 yy 12 := by
  induction stats generalizing y0 with
  | nil => intro e he; cases he
  | cons p rest ih =>
      intro e he
      rw [statLines] at he
      rcases List.mem_cons.mp he with rfl | he
      · exact ⟨p.1, p.2, y0, List.mem_cons_self _ _, rfl⟩
      · obtain ⟨nm, v, yy, hmem, rfl⟩ := ih (y0 + 5) e he
        exact ⟨nm, v, yy, List.mem_cons_of_mem _ hmem, rfl⟩

theorem summaryBlock_mem (summary : List (String × List (String × JsVal))) (y0 : ℚ) :
    ∀ e ∈ (summaryBlock summary y0).1, ∃ str yy, e = DocElem.text str 10 yy 12 ∧
      ∃ c stats, (c, stats) ∈ summary ∧
        (str = c ++ ":" ∨ ∃ nm v, (nm, v) ∈ stats ∧
          str = "  " ++ nm ++ ": " ++ jsRender v) := by
  induction summary generalizing y0 with
  | nil => intro e he; cases he
  | cons p rest ih =>
      intro e he
      rw [summaryBlock] at he
      rcases List.mem_cons.mp he with rfl | he
      · exact ⟨p.1 ++ ":", y0, rfl, p.1, p.2, List.mem_cons_self _ _, Or.inl rfl⟩
      · rcases List.mem_append.mp he with he | he
        · obtain ⟨nm, v, yy, hmem, rfl⟩ := statLines_mem p.2 (y0 + 5) e he
          exact ⟨_, yy, rfl, p.1, p.2, List.mem_cons_self _ _, Or.inr ⟨nm, v, hmem, rfl⟩⟩
        · obtain ⟨str, yy, rfl, c, stats, hmem, hor⟩ := ih _ e he
          exact ⟨str, yy, rfl, c, stats, List.mem_cons_of_mem _ hmem, hor⟩

theorem kvLines_mem (entries : List (String × String)) (y0 : ℚ) :
    ∀ e ∈ (kvLines entries y0).1, ∃ k v yy, (k, v) ∈ entries ∧
      e = DocElem.text (k ++ ": " ++ v) 10 yy 12 := by
  induction entries generalizing y0 with
  | nil => intro e he; cases he
  | cons p rest ih =>
      intro e he
      rw [kvLines] at he
      rcases List.mem_cons.mp he with rfl | he
      · exact ⟨p.1, p.2, y0, List.mem_cons_self _ _, rfl⟩
      · obtain ⟨k, v, yy, hmem, rfl⟩ := ih (y0 + 5) e he
        exact ⟨k, v, yy, List.mem_cons_of_mem _ hmem, rfl⟩

/-- Body text (12-point lines) contributes no section headings and no
images. -/
theorem sectionHeadings_body (d : List DocElem)
    (h : ∀ e ∈ d, ∃ str x y, e = DocElem.text str x y 12) :
    sectionHeadings d = [] ∧ d.countP DocElem.isImage = 0 := by
  induction d with
  | nil => exact ⟨rfl, rfl⟩
  | cons e rest ih =>
      obtain ⟨str, x, y, rfl⟩ := h e (List.mem_cons_self _ _)
      have hrest := ih fun e he => h e (List.mem_cons_of_mem _ he)
      refine ⟨?_, ?_⟩
      · rw [sectionHeadings, List.filterMap_cons]
        have h16 : ¬((12 : ℚ) = 16) := by norm_num
        simp only [h16, if_false]
        exact hrest.1
      · rw [List.countP_cons]
        simp [DocElem.isImage, hrest.2]

/-- `generatePDF` in closed form: title, then the four body sections, then
the conditional heatmap tail. -/
theorem generatePDF_decomp (a : JsAnalysis) :
    ∃ y1 y2 y3 y4 : ℚ,
      generatePDF a =
        DocElem.text "Data Analysis Report" 105 10 20 ::
        DocElem.text "Summary Statistics" 10 y1 16 ::
        ((summaryBlock a.summary (y1 + 10)).1 ++
          (DocElem.text "Column Types" 10 y2 16 ::
            ((kvLines a.column_types (y2 + 10)).1 ++
              (DocElem.text "Missing Values" 10 y3 16 ::
                ((kvLines (a.missing_values.map fun p => (p.1, toString p.2)) (y3 + 10)).1 ++
                  (if 0 < a.correlations.length then
                    [DocElem.text "Correlation Heatmap" 10 y4 16,
                     DocElem.image 10 (y4 + 10) 190 100]
                  else [])))))) :=
  ⟨_, _, _, _, rfl⟩

/-- The 16-point headings of a report are exactly the four section
headings, the last present iff the correlation object is non-empty; images
appear exactly with the heatmap section. -/
theorem sectionHeadings_generatePDF (a : JsAnalysis) :
    sectionHeadings (generatePDF a) =
      "Summary Statistics" :: "Column Types" :: "Missing Values" ::
        (if 0 < a.correlations.length then ["Correlation Heatmap"] else []) ∧
    (generatePDF a).countP DocElem.isImage =
      (if 0 < a.correlations.length then 1 else 0) := by
  obtain ⟨y1, y2, y3, y4, hdec⟩ := generatePDF_decomp a
  have hsum := sectionHeadings_body (summaryBlock a.summary (y1 + 10)).1
    (fun e he => by
      obtain ⟨str, yy, rfl, -⟩ := summaryBlock_mem a.summary (y1 + 10) e he
      exact ⟨str, 10, yy, rfl⟩)
  have htyp := sectionHeadings_body (kvLines a.column_types (y2 + 10)).1
    (fun e he => by
      obtain ⟨k, v, yy, -, rfl⟩ := kvLines_mem a.column_types (y2 + 10) e he
      exact ⟨_, 10, yy, rfl⟩)
  have hmis := sectionHeadings_body
    (kvLines (a.missing_values.map fun p => (p.1, toString p.2)) (y3 + 10)).1
    (fun e he => by
      obtain ⟨k, v, yy, -, rfl⟩ := kvLines_mem _ (y3 + 10) e he
      exact ⟨_, 10, yy, rfl⟩)
  rw [hdec]
  by_cases hc : 0 < a.correlations.length
  · constructor
    · rw [sectionHeadings] at hsum htyp hmis ⊢
      simp only [hc, if_true, List.filterMap_cons, List.filterMap_append,
        hsum.1, htyp.1, hmis.1]
      norm_num
    · simp only [hc, if_true, List.countP_cons, List.countP_append,
        hsum.2, htyp.2, hmis.2]
      simp [DocElem.isImage]
  · constructor
    · rw [sectionHeadings] at hsum htyp hmis ⊢
      simp only [hc, if_false, List.filterMap_cons, List.filterMap_append,
        hsum.1, htyp.1, hmis.1]
      norm_num
    · simp only [hc, if_false, List.countP_cons, List.countP_append,
        hsum.2, htyp.2, hmis.2]
      simp [DocElem.isImage]

/-! ## C7: section order and 2-decimal statistics -/

/-- C7: the composed report is the title followed by the Summary
Statistics, Column Types and Missing Values sections in that fixed order,
each starting with its 16-point heading, with the Correlation Heatmap
section (heading plus raster) appended exactly when a heatmap was produced;
every line of the summary section is either a column label or a
`stat: value` line, and every numeric statistic value is rendered with
`toFixed(2)`, hence with exactly two decimal places. -/
theorem report_section_order (a : JsAnalysis) :
    ∃ (s t m : List DocElem) (y1 y2 y3 y4 : ℚ),
      generatePDF a =
        DocElem.text "Data Analysis Report" 105 10 20 ::
        DocElem.text "Summary Statistics" 10 y1 16 ::
        (s ++ (DocElem.text "Column Types" 10 y2 16 ::
          (t ++ (DocElem.text "Missing Values" 10 y3 16 ::
            (m ++ (if 0 < a.correlations.length then
                     [DocElem.text "Correlation Heatmap" 10 y4 16,
                      DocElem.image 10 (y4 + 10) 190 100]
                   else [])))))) ∧
      (∀ e ∈ s, ∃ str yy, e = DocElem.text str 10 yy 12 ∧
        ∃ c stats, (c, stats) ∈ a.summary ∧
          (str = c ++ ":" ∨ ∃ nm v, (nm, v) ∈ stats ∧
            str = "  " ++ nm ++ ": " ++ jsRender v ∧
            (∀ q : ℚ, v = JsVal.num q →
              jsRender v = toFixed2 q ∧ endsTwoDecimals (jsRender v) = true))) ∧
      (∀ e ∈ t, ∃ k ty yy, (k, ty) ∈ a.column_types ∧
        e = DocElem.text (k ++ ": " ++ ty) 10 yy 12) ∧
      (∀ e ∈ m, ∃ k c yy, (k, c) ∈ a.missing_values ∧
        e = DocElem.text (k ++ ": " ++ toString c) 10 yy 12) := by
  obtain ⟨y1, y2, y3, y4, hdec⟩ := generatePDF_decomp a
  refine ⟨_, _, _, y1, y2, y3, y4, hdec, ?_, ?_, ?_⟩
  · intro e he
    obtain ⟨str, yy, rfl, c, stats, hm, hor⟩ := summaryBlock_mem a.summary (y1 + 10) e he
    refine ⟨str, yy, rfl, c, stats, hm, ?_⟩
    rcases hor with h | ⟨nm, v, hv, rfl⟩
    · exact Or.inl h
    · refine Or.inr ⟨nm, v, hv, rfl, ?_⟩
      rintro q rfl
      exact ⟨rfl, endsTwoDecimals_toFixed2 q⟩
  · intro e he
    obtain ⟨k, v, yy, hm, rfl⟩ := kvLines_mem a.column_types (y2 + 10) e he
    exact ⟨k, v, yy, hm, rfl⟩
  · intro e he
    obtain ⟨k, v, yy, hm, rfl⟩ := kvLines_mem _ (y3 + 10) e he
    rcases List.mem_map.mp hm with ⟨p, hp, hpe⟩
    cases hpe
    exact ⟨p.1, p.2, yy, hp, rfl⟩

/-- C7, witness: the decomposition at a one-column analysis result; the
document starts with the title element. -/
theorem report_section_order_witness :
    ∃ d : List DocElem,
      generatePDF ⟨[("a", [("mean", JsVal.num 1)])], [("a", "float64")], [("a", 0)], []⟩ = d ∧
      d.head? = some (DocElem.text "Data Analysis Report" 105 10 20) := by
  obtain ⟨s, t, m, y1, y2, y3, y4, hdec, -, -, -⟩ :=
    report_section_order ⟨[("a", [("mean", JsVal.num 1)])], [("a", "float64")], [("a", 0)], []⟩
  exact ⟨_, hdec, rfl⟩

/-! ## C3: heatmap skipped for fewer than two numeric columns -/

theorem jsonRoundTrip_of_nan (fs : ℚ → ℚ) (fc : Coef → ℚ) (r : PyAnalysis)
    (h : pyHasNaN r = true) : jsonRoundTrip fs fc r = none := by
  rw [jsonRoundTrip, if_pos h]

theorem jsonRoundTrip_of_clean (fs : ℚ → ℚ) (fc : Coef → ℚ) (r : PyAnalysis)
    (h : pyHasNaN r = false) :
    jsonRoundTrip fs fc r =
      some
        { summary := r.summary.map fun p => (p.1, p.2.map fun q => (q.1, statToJs fs q.2))
          column_types := r.column_types.map fun p => (p.1, dtypeName p.2)
          missing_values := r.missing_values
          correlations := r.correlations.map fun p =>
            (p.1, p.2.map fun q =>
              (q.1, match q.2 with
                    | some c => fc c
                    | none => 0)) } := by
  rw [jsonRoundTrip, if_neg (by simp [h])]

theorem analyzeData_of_ok (fs : ℚ → ℚ) (fc : Coef → ℚ) (rows : List Row)
    (r : PyAnalysis) (h : analyzeDataPy rows = Except.ok r) :
    analyzeData fs fc rows =
      match jsonRoundTrip fs fc r with
      | none => Except.error "SyntaxError: Unexpected token N in JSON"
      | some a => Except.ok a := by
  rw [analyzeData, h]
  rfl

theorem analyzeDataPy_ok_shape (rows : List Row) (r : PyAnalysis)
    (h : analyzeDataPy rows = Except.ok r) :
    r = { summary := describeDF (convertDF rows)
          column_types := (convertDF rows).map fun p => (p.1, p.2.dtype)
          missing_values := (convertDF rows).map fun p => (p.1, p.2.isnullCount)
          correlations :=
            if 1 < (numericColsOf (convertDF rows)).length then
              corrMatrix (numericColsOf (convertDF rows))
            else [] } := by
  rw [analyzeDataPy] at h
  cases hemp : (convertDF rows).isEmpty with
  | true => rw [hemp, if_pos rfl] at h; cases h
  | false =>
      rw [hemp] at h
      simp only [Bool.false_eq_true, if_false, Except.ok.injEq] at h
      exact h.symm

/-- C3: when the analysis succeeds, a table with at most one numeric column
yields an empty correlation object and a document with no Correlation
Heatmap section (neither heading nor raster — the heatmap stage is skipped
entirely); with at least two numeric columns the correlation object is
non-empty and the section, heading and raster, is present. -/
theorem heatmap_skip_and_presence (rows : List Row) (fs : ℚ → ℚ) (fc : Coef → ℚ)
    (a : JsAnalysis) (h : analyzeData fs fc rows = Except.ok a) :
    ((numericColsOf (convertDF rows)).length ≤ 1 →
      a.correlations = [] ∧
      sectionHeadings (generatePDF a) =
        ["Summary Statistics", "Column Types", "Missing Values"] ∧
      (generatePDF a).countP DocElem.isImage = 0) ∧
    (2 ≤ (numericColsOf (convertDF rows)).length →
      a.correlations ≠ [] ∧
      sectionHeadings (generatePDF a) =
        ["Summary Statistics", "Column Types", "Missing Values", "Correlation Heatmap"] ∧
      (generatePDF a).countP DocElem.isImage = 1) := by
  cases hpy : analyzeDataPy rows with
  | error e => rw [analyzeData, hpy] at h; cases h
  | ok r =>
      rw [analyzeData_of_ok fs fc rows r hpy] at h
      by_cases hnan : pyHasNaN r = true
      · rw [jsonRoundTrip_of_nan fs fc r hnan] at h; cases h
      · rw [jsonRoundTrip_of_clean fs fc r (by simpa using hnan)] at h
        simp only [Except.ok.injEq] at h
        have hshape := analyzeDataPy_ok_shape rows r hpy
        have hcorr :
            a.correlations = r.correlations.map fun p =>
              (p.1, p.2.map fun q =>
                (q.1, match q.2 with
                      | some c => fc c
                      | none => 0)) := by rw [← h]
        have hrc :
            r.correlations =
              if 1 < (numericColsOf (convertDF rows)).length then
                corrMatrix (numericColsOf (convertDF rows))
              else [] := by rw [hshape]
        constructor
        · intro hle
          have hempty : a.correlations = [] := by
            rw [hcorr, hrc, if_neg (by omega)]
            rfl
          refine ⟨hempty, ?_, ?_⟩
          · rw [(sectionHeadings_generatePDF a).1, hempty]
            rfl
          · rw [(sectionHeadings_generatePDF a).2, hempty]
            rfl
        · intro hge
          have hlen : a.correlations.length = (numericColsOf (convertDF rows)).length := by
            rw [hcorr, List.length_map, hrc, if_pos (by omega), corrMatrix, List.length_map]
          have hpos : 0 < a.correlations.length := by omega
          refine ⟨?_, ?_, ?_⟩
          · intro hempty
            rw [hempty] at hpos
            cases hpos
          · rw [(sectionHeadings_generatePDF a).1, if_pos hpos]
          · rw [(sectionHeadings_generatePDF a).2, if_pos hpos]

/-- C3, witness: on the table `a = 1,2,3`, `b = 2,4,6` the analysis
succeeds, the correlation object is non-empty, and the report carries the
Correlation Heatmap section with its raster. -/
theorem heatmap_skip_and_presence_witness :
    ∃ a : JsAnalysis, analyzeData (fun x => x) (fun c => c.sxy) rowsAB = Except.ok a ∧
      a.correlations ≠ [] ∧
      sectionHeadings (generatePDF a) =
        ["Summary Statistics", "Column Types", "Missing Values", "Correlation Heatmap"] ∧
      (generatePDF a).countP DocElem.isImage = 1 := by
  have hnums : numericColsOf (convertDF rowsAB) =
      [("a", [some 1, some 2, some 3]), ("b", [some 2, some 4, some 6])] := by decide
  have hc1 : corrOf [some (1:ℚ), some 2, some 3] [some 1, some 2, some 3] =
      some ⟨2, 2, 2⟩ := by
    norm_num [corrOf, centeredPairs, pairComplete, qmean,
      List.filterMap_cons, List.zip_cons_cons, List.zip_nil_right, List.zip_nil_left]
  have hc2 : corrOf [some (2:ℚ), some 4, some 6] [some 1, some 2, some 3] =
      some ⟨4, 8, 2⟩ := by
    norm_num [corrOf, centeredPairs, pairComplete, qmean,
      List.filterMap_cons, List.zip_cons_cons, List.zip_nil_right, List.zip_nil_left]
  have hc3 : corrOf [some (1:ℚ), some 2, some 3] [some 2, some 4, some 6] =
      some ⟨4, 2, 8⟩ := by
    norm_num [corrOf, centeredPairs, pairComplete, qmean,
      List.filterMap_cons, List.zip_cons_cons, List.zip_nil_right, List.zip_nil_left]
  have hc4 : corrOf [some (2:ℚ), some 4, some 6] [some 2, some 4, some 6] =
      some ⟨8, 8, 8⟩ := by
    norm_num [corrOf, centeredPairs, pairComplete, qmean,
      List.filterMap_cons, List.zip_cons_cons, List.zip_nil_right, List.zip_nil_left]
  have hmat : corrMatrix (numericColsOf (convertDF rowsAB)) =
      [("a", [("a", some ⟨2, 2, 2⟩), ("b", some ⟨4, 8, 2⟩)]),
       ("b", [("a", some ⟨4, 2, 8⟩), ("b", some ⟨8, 8, 8⟩)])] := by
    rw [hnums, corrMatrix]
    simp [hc1, hc2, hc3, hc4]
  have hite : (if 1 < (numericColsOf (convertDF rowsAB)).length then
      corrMatrix (numericColsOf (convertDF rowsAB)) else []) =
      [("a", [("a", some ⟨2, 2, 2⟩), ("b", some ⟨4, 8, 2⟩)]),
       ("b", [("a", some ⟨4, 2, 8⟩), ("b", some ⟨8, 8, 8⟩)])] := by
    rw [if_pos (by rw [hnums]; decide), hmat]
  have hpy : analyzeDataPy rowsAB = Except.ok
      { summary := describeDF (convertDF rowsAB)
        column_types := (convertDF rowsAB).map fun p => (p.1, p.2.dtype)
        missing_values := (convertDF rowsAB).map fun p => (p.1, p.2.isnullCount)
        correlations :=
          [("a", [("a", some ⟨2, 2, 2⟩), ("b", some ⟨4, 8, 2⟩)]),
           ("b", [("a", some ⟨4, 2, 8⟩), ("b", some ⟨8, 8, 8⟩)])] } := by
    rw [analyzeDataPy]
    simp only [show (convertDF rowsAB).isEmpty = false from by decide,
      Bool.false_eq_true, if_false, hite]
  have hnan : pyHasNaN
      { summary := describeDF (convertDF rowsAB)
        column_types := (convertDF rowsAB).map fun p => (p.1, p.2.dtype)
        missing_values := (convertDF rowsAB).map fun p => (p.1, p.2.isnullCount)
        correlations :=
          [("a", [("a", some ⟨2, 2, 2⟩), ("b", some ⟨4, 8, 2⟩)]),
           ("b", [("a", some ⟨4, 2, 8⟩), ("b", some ⟨8, 8, 8⟩)])] } = false := by
    decide
  have hok := analyzeData_of_ok (fun x => x) (fun c => c.sxy) rowsAB _ hpy
  rw [jsonRoundTrip_of_clean _ _ _ hnan] at hok
  obtain ⟨hne, hsh, hcount⟩ :=
    (heatmap_skip_and_presence rowsAB _ _ _ hok).2 (by rw [hnums]; decide)
  exact ⟨_, hok, hne, hsh, hcount⟩

/-! ## C6: zero-variance columns crash the analysis -/

/-- C6: with a zero-variance numeric column next to another numeric column,
pandas produces NaN coefficients for every pair involving the constant
column; `json.dumps` serializes them as the bare token `NaN`, which
`JSON.parse` rejects, so `analyzeData` raises instead of completing with a
defined policy (neither `0` nor omission): the whole request fails. -/
theorem zero_variance_crashes :
    (∃ r : PyAnalysis, analyzeDataPy rowsConst = Except.ok r ∧
        r.correlations.any (fun p => p.2.any fun q => q.2.isNone) = true) ∧
    ∀ fs : ℚ → ℚ, ∀ fc : Coef → ℚ,
      analyzeData fs fc rowsConst =
        Except.error "SyntaxError: Unexpected token N in JSON" := by
  have hnums : numericColsOf (convertDF rowsConst) =
      [("a", [some 1, some 2, some 3]), ("b", [some 1, some 1, some 1])] := by decide
  have hcaa : corrOf [some (1:ℚ), some 2, some 3] [some 1, some 2, some 3] =
      some ⟨2, 2, 2⟩ := by
    norm_num [corrOf, centeredPairs, pairComplete, qmean,
      List.filterMap_cons, List.zip_cons_cons, List.zip_nil_right, List.zip_nil_left]
  have hcba : corrOf [some (1:ℚ), some 1, some 1] [some 1, some 2, some 3] = none := by
    norm_num [corrOf, centeredPairs, pairComplete, qmean,
      List.filterMap_cons, List.zip_cons_cons, List.zip_nil_right, List.zip_nil_left]
  have hcab : corrOf [some (1:ℚ), some 2, some 3] [some 1, some 1, some 1] = none := by
    norm_num [corrOf, centeredPairs, pairComplete, qmean,
      List.filterMap_cons, List.zip_cons_cons, List.zip_nil_right, List.zip_nil_left]
  have hcbb : corrOf [some (1:ℚ), some 1, some 1] [some 1, some 1, some 1] = none := by
    norm_num [corrOf, centeredPairs, pairComplete, qmean,
      List.filterMap_cons, List.zip_cons_cons, List.zip_nil_right, List.zip_nil_left]
  have hmat : corrMatrix (numericColsOf (convertDF rowsConst)) =
      [("a", [("a", some ⟨2, 2, 2⟩), ("b", none)]),
       ("b", [("a", none), ("b", none)])] := by
    rw [hnums, corrMatrix]
    simp [hcaa, hcba, hcab, hcbb]
  have hite : (if 1 < (numericColsOf (convertDF rowsConst)).length then
      corrMatrix (numericColsOf (convertDF rowsConst)) else []) =
      [("a", [("a", some ⟨2, 2, 2⟩), ("b", none)]),
       ("b", [("a", none), ("b", none)])] := by
    rw [if_pos (by rw [hnums]; decide), hmat]
  have hpy : analyzeDataPy rowsConst = Except.ok
      { summary := describeDF (convertDF rowsConst)
        column_types := (convertDF rowsConst).map fun p => (p.1, p.2.dtype)
        missing_values := (convertDF rowsConst).map fun p => (p.1, p.2.isnullCount)
        correlations :=
          [("a", [("a", some ⟨2, 2, 2⟩), ("b", none)]),
           ("b", [("a", none), ("b", none)])] } := by
    rw [analyzeDataPy]
    simp only [show (convertDF rowsConst).isEmpty = false from by decide,
      Bool.false_eq_true, if_false, hite]
  have hnan : pyHasNaN
      { summary := describeDF (convertDF rowsConst)
        column_types := (convertDF rowsConst).map fun p => (p.1, p.2.dtype)
        missing_values := (convertDF rowsConst).map fun p => (p.1, p.2.isnullCount)
        correlations :=
          [("a", [("a", some ⟨2, 2, 2⟩), ("b", none)]),
           ("b", [("a", none), ("b", none)])] } = true := by
    decide
  refine ⟨⟨_, hpy, by decide⟩, fun fs fc => ?_⟩
  rw [analyzeData_of_ok fs fc rowsConst _ hpy, jsonRoundTrip_of_nan _ _ _ hnan]

/-! ## C8: heatmap colors and cell labels -/

/-- C8: the cell color depends only on `|v|` (sign is not encoded), the
shared red/green channel is the floor of the linear ramp `255·(1 − |v|)`
— hence monotonically falling in `|v|`, 255 (pale white) at `|v| = 0` and
0 (saturated blue) at `|v| = 1`, with blue constant — and every heatmap
cell carries its coefficient as text rounded to two decimals, centered in
the cell. -/
theorem heatmap_color_policy (v w : ℚ) (corr : List (String × List (String × ℚ))) :
    getCorrelationColor (-v) = getCorrelationColor v ∧
    (|v| ≤ |w| → corrChannelRG w ≤ corrChannelRG v) ∧
    ((corrChannelRG v : ℚ) ≤ 255 * (1 - |v|) ∧
      255 * (1 - |v|) - 1 < (corrChannelRG v : ℚ)) ∧
    (-1 ≤ v → v ≤ 1 → 0 ≤ corrChannelRG v ∧ corrChannelRG v ≤ 255) ∧
    getCorrelationColor 0 = "rgb(255,255,255)" ∧
    getCorrelationColor 1 = "rgb(0,0,255)" ∧
    getCorrelationColor (-1) = "rgb(0,0,255)" ∧
    (∀ c ∈ (createCorrelationHeatmap corr).cells, ∃ c1 c2 : String,
      c.color = getCorrelationColor (corrValueAt corr c1 c2) ∧
      c.label = toFixed2 (corrValueAt corr c1 c2) ∧
      endsTwoDecimals c.label = true ∧
      c.labelX = c.x + c.size / 2 ∧ c.labelY = c.y + c.size / 2) := by
  have habs : ∀ u : ℚ, corrChannelRG (-u) = corrChannelRG u := by
    intro u
    rw [corrChannelRG, corrChannelRG, abs_neg]
  have h0 : corrChannelRG 0 = 255 := by
    rw [corrChannelRG]
    exact Int.floor_eq_iff.mpr (by norm_num)
  have h1' : corrChannelRG 1 = 0 := by
    rw [corrChannelRG]
    exact Int.floor_eq_iff.mpr (by norm_num)
  refine ⟨?_, ?_, ?_, ?_, ?_, ?_, ?_, ?_⟩
  · rw [getCorrelationColor, getCorrelationColor, habs]
  · intro hvw
    apply Int.floor_mono
    have : 1 - |w| ≤ 1 - |v| := by linarith
    nlinarith
  · refine ⟨Int.floor_le _, ?_⟩
    have := Int.lt_floor_add_one ((255:ℚ) * (1 - |v|))
    rw [corrChannelRG]
    linarith
  · intro hlo hhi
    have hva : |v| ≤ 1 := abs_le.mpr ⟨hlo, hhi⟩
    have hnn : (0:ℚ) ≤ 255 * (1 - |v|) := by nlinarith
    constructor
    · exact Int.floor_nonneg.mpr hnn
    · have hle : (255:ℚ) * (1 - |v|) ≤ ((255:ℤ) : ℚ) := by
        push_cast
        nlinarith [abs_nonneg v]
      have := Int.floor_le_floor hle
      rwa [Int.floor_intCast] at this
  · rw [getCorrelationColor, h0]
    decide
  · rw [getCorrelationColor, h1']
    decide
  · rw [getCorrelationColor, habs, h1']
    decide
  · intro c hc
    rw [createCorrelationHeatmap] at hc
    simp only [List.mem_flatten, List.mem_map] at hc
    obtain ⟨inner, ⟨pi, hpi, rfl⟩, hcin⟩ := hc
    simp only [List.mem_map] at hcin
    obtain ⟨pj, hpj, rfl⟩ := hcin
    refine ⟨pi.2, pj.2, rfl, rfl, endsTwoDecimals_toFixed2 _, by ring, by ring⟩

/-- C8, witness: at `v = 1/2`, `w = 1`: negation leaves the color
unchanged, and the channel does not increase from `|1/2|` to `|1|`. -/
theorem heatmap_color_policy_witness :
    getCorrelationColor (-(1/2)) = getCorrelationColor (1/2) ∧
      corrChannelRG 1 ≤ corrChannelRG (1/2) :=
  ⟨(heatmap_color_policy (1/2) 1 []).1,
   (heatmap_color_policy (1/2) 1 []).2.1
     (by rw [abs_of_nonneg (by norm_num : (0:ℚ) ≤ 1/2),
             abs_of_nonneg (by norm_num : (0:ℚ) ≤ 1)]; norm_num)⟩

/-! ## C9: cell size -/

theorem exists_cellSize_lt (ε : ℚ) (hε : 0 < ε) :
    ∃ n : ℕ, 1 ≤ n ∧ cellSizeOf n < ε := by
  refine ⟨⌈(500:ℚ)/ε⌉.toNat + 1, by omega, ?_⟩
  have hceil : (0:ℤ) ≤ ⌈(500:ℚ)/ε⌉ := Int.ceil_nonneg (by positivity)
  have hNpos : (0:ℚ) < ((⌈(500:ℚ)/ε⌉.toNat + 1 : ℕ) : ℚ) := by positivity
  have hn : (500:ℚ)/ε < ((⌈(500:ℚ)/ε⌉.toNat + 1 : ℕ) : ℚ) := by
    have ha : (500:ℚ)/ε ≤ (⌈(500:ℚ)/ε⌉ : ℚ) := Int.le_ceil _
    have hb : (⌈(500:ℚ)/ε⌉ : ℤ) < ((⌈(500:ℚ)/ε⌉.toNat + 1 : ℕ) : ℤ) := by omega
    have hb' : ((⌈(500:ℚ)/ε⌉ : ℤ) : ℚ) < ((⌈(500:ℚ)/ε⌉.toNat + 1 : ℕ) : ℚ) := by
      exact_mod_cast hb
    linarith
  have h500 : (500:ℚ) < ε * ((⌈(500:ℚ)/ε⌉.toNat + 1 : ℕ) : ℚ) := by
    have := (div_lt_iff₀ hε).mp hn
    linarith
  have hlt : (500:ℚ) / ((⌈(500:ℚ)/ε⌉.toNat + 1 : ℕ) : ℚ) < ε :=
    (div_lt_iff₀ hNpos).mpr (by linarith)
  exact lt_of_le_of_lt (min_le_left _ _) hlt

/-- C9, counterexample: no positive constant bounds the cell size from
below — for every `m > 0` some column count drives
`min(500 / n, 50)` beneath it, since the code has no floor. -/
theorem cellsize_no_lower_bound :
    ¬ ∃ m : ℚ, 0 < m ∧ ∀ n : ℕ, 1 ≤ n → m ≤ cellSizeOf n := by
  rintro ⟨m, hm, hall⟩
  obtain ⟨n, hn1, hlt⟩ := exists_cellSize_lt m hm
  exact absurd (hall n hn1) (not_le.mpr hlt)

/-- C9, amended: the heatmap cell size is `min(500 / n, 50)` over the
column count `n`: non-increasing in `n`, positive for each fixed `n` and
never above 50, but with no uniform positive lower bound — it sinks below
every `ε > 0` for large enough column counts. -/
theorem cellsize_policy :
    (∀ corr : List (String × List (String × ℚ)),
        (createCorrelationHeatmap corr).cellSize = cellSizeOf corr.length) ∧
    (∀ n k : ℕ, 1 ≤ n → n ≤ k → cellSizeOf k ≤ cellSizeOf n) ∧
    (∀ n : ℕ, 1 ≤ n → 0 < cellSizeOf n ∧ cellSizeOf n ≤ 50) ∧
    (∀ ε : ℚ, 0 < ε → ∃ n : ℕ, 1 ≤ n ∧ cellSizeOf n < ε) := by
  refine ⟨?_, ?_, ?_, exists_cellSize_lt⟩
  · intro corr
    rw [createCorrelationHeatmap, List.length_map]
  · intro n k hn hk
    have hnpos : (0:ℚ) < (n:ℚ) := by exact_mod_cast hn
    have hcast : (n:ℚ) ≤ (k:ℚ) := by exact_mod_cast hk
    exact min_le_min (div_le_div_of_nonneg_left (by norm_num) hnpos hcast) le_rfl
  · intro n hn
    have hnpos : (0:ℚ) < (n:ℚ) := by exact_mod_cast hn
    exact ⟨lt_min (by positivity) (by norm_num), min_le_right _ _⟩

/-- C9, witness: ten columns give cells no larger than two columns do, and
five columns still give a positive cell size. -/
theorem cellsize_policy_witness :
    cellSizeOf 10 ≤ cellSizeOf 2 ∧ 0 < cellSizeOf 5 :=
  ⟨cellsize_policy.2.1 2 10 (by norm_num) (by norm_num),
   (cellsize_policy.2.2.1 5 (by norm_num)).1⟩

/-! ## Correlation algebra -/

theorem sum_map_sq_nonneg {α : Type} (l : List α) (f : α → ℚ) :
    0 ≤ (l.map fun x => (f x) ^ 2).sum := by
  induction l with
  | nil => simp
  | cons a t ih =>
      simp only [List.map_cons, List.sum_cons]
      have := sq_nonneg (f a)
      linarith

/-- Cauchy–Schwarz for a list of pairs. -/
theorem list_cauchy_schwarz (ps : List (ℚ × ℚ)) :
    ((ps.map fun p => p.1 * p.2).sum) ^ 2 ≤
      ((ps.map fun p => p.1 ^ 2).sum) * ((ps.map fun p => p.2 ^ 2).sum) := by
  induction ps with
  | nil => simp
  | cons p t ih =>
      simp only [List.map_cons, List.sum_cons]
      have hxx : 0 ≤ (t.map fun q => q.1 ^ 2).sum := sum_map_sq_nonneg t fun q => q.1
      have hyy : 0 ≤ (t.map fun q => q.2 ^ 2).sum := sum_map_sq_nonneg t fun q => q.2
      by_cases hB : (t.map fun q => q.2 ^ 2).sum = 0
      · have hS0 : ((t.map fun q => q.1 * q.2).sum) ^ 2 ≤ 0 := by
          rw [hB] at ih
          simpa using ih
        have hS : (t.map fun q => q.1 * q.2).sum = 0 := by nlinarith [sq_nonneg ((t.map fun q => q.1 * q.2).sum)]
        rw [hB, hS]
        nlinarith [mul_nonneg hxx (sq_nonneg p.2)]
      · have hBpos : 0 < (t.map fun q => q.2 ^ 2).sum := lt_of_le_of_ne hyy (Ne.symm hB)
        nlinarith [sq_nonneg (p.1 * (t.map fun q => q.2 ^ 2).sum -
            p.2 * (t.map fun q => q.1 * q.2).sum),
          mul_le_mul_of_nonneg_left ih (sq_nonneg p.2),
          mul_nonneg (sub_nonneg.mpr ih) hyy, hBpos]

theorem pairComplete_swap (xs ys : List (Option ℚ)) :
    pairComplete ys xs = (pairComplete xs ys).map Prod.swap := by
  induction xs generalizing ys with
  | nil =>
      cases ys with
      | nil => rfl
      | cons y t => cases y <;> rfl
  | cons x xs ih =>
      cases ys with
      | nil => cases x <;> rfl
      | cons y ys =>
          cases x <;> cases y <;> simp [pairComplete, ih, Prod.swap]

theorem pairComplete_self (xs : List (Option ℚ)) :
    pairComplete xs xs = (xs.filterMap id).map fun a => (a, a) := by
  induction xs with
  | nil => rfl
  | cons x xs ih => cases x <;> simp [pairComplete, ih]

theorem centeredPairs_swap (xs ys : List (Option ℚ)) :
    centeredPairs ys xs = (centeredPairs xs ys).map Prod.swap := by
  rw [centeredPairs, centeredPairs, pairComplete_swap]
  simp only [List.map_map, Function.comp_def, Prod.fst_swap, Prod.snd_swap, Prod.swap_prod_mk]

theorem corrOf_symm (xs ys : List (Option ℚ)) :
    corrOf ys xs = (corrOf xs ys).map fun c => ⟨c.sxy, c.syy, c.sxx⟩ := by
  rw [corrOf, corrOf, centeredPairs_swap]
  simp only [List.map_map, Function.comp_def, Prod.fst_swap, Prod.snd_swap]
  have hxy : ((centeredPairs xs ys).map fun p => p.2 * p.1).sum =
      ((centeredPairs xs ys).map fun p => p.1 * p.2).sum := by
    simp [mul_comm]
  rw [hxy]
  by_cases h : ((centeredPairs xs ys).map fun p => p.1 ^ 2).sum = 0 ∨
      ((centeredPairs xs ys).map fun p => p.2 ^ 2).sum = 0
  · rw [if_pos (Or.symm h), if_pos h]
    rfl
  · rw [if_neg fun hc => h (Or.symm hc), if_neg h]
    rfl

theorem Coef.val_flip (a b c : ℚ) :
    (Coef.mk a c b).val = (Coef.mk a b c).val := by
  rw [Coef.val, Coef.val]
  simp only
  rw [mul_comm]

theorem Coef.val_diag (s : ℚ) (hs : 0 < s) : (Coef.mk s s s).val = 1 := by
  rw [Coef.val]
  simp only
  rw [Real.sqrt_mul_self (by positivity : (0:ℝ) ≤ (s:ℚ))]
  have : ((s:ℚ):ℝ) ≠ 0 := by positivity
  field_simp

theorem corrOf_self (xs : List (Option ℚ))
    (h : centeredSS (xs.filterMap id) ≠ 0) :
    ∃ s : ℚ, corrOf xs xs = some ⟨s, s, s⟩ ∧ 0 < s := by
  have hps : centeredPairs xs xs =
      (xs.filterMap id).map fun a => (a - qmean (xs.filterMap id), a - qmean (xs.filterMap id)) := by
    rw [centeredPairs, pairComplete_self]
    simp [List.map_map, Function.comp_def]
  have hsums : ∀ f : ℚ × ℚ → ℚ,
      ((centeredPairs xs xs).map f).sum =
        ((xs.filterMap id).map fun a =>
          f (a - qmean (xs.filterMap id), a - qmean (xs.filterMap id))).sum := by
    intro f
    rw [hps, List.map_map]
    rfl
  have hxx : ((centeredPairs xs xs).map fun p => p.1 ^ 2).sum = centeredSS (xs.filterMap id) := by
    rw [hsums]
    rfl
  have hyy : ((centeredPairs xs xs).map fun p => p.2 ^ 2).sum = centeredSS (xs.filterMap id) := by
    rw [hsums]
    rfl
  have hxy : ((centeredPairs xs xs).map fun p => p.1 * p.2).sum = centeredSS (xs.filterMap id) := by
    rw [hsums, centeredSS]
    simp [pow_two]
  have hpos : 0 < centeredSS (xs.filterMap id) := by
    have hnn : 0 ≤ centeredSS (xs.filterMap id) :=
      sum_map_sq_nonneg (xs.filterMap id) fun x => x - qmean (xs.filterMap id)
    exact lt_of_le_of_ne hnn (Ne.symm h)
  refine ⟨centeredSS (xs.filterMap id), ?_, hpos⟩
  rw [corrOf]
  rw [if_neg]
  · rw [hxx, hyy, hxy]
  · rw [hxx, hyy]
    rintro (hc | hc) <;> exact h hc

theorem Coef.val_bound (c : Coef) (hA : 0 < c.sxx) (hB : 0 < c.syy)
    (hcs : c.sxy ^ 2 ≤ c.sxx * c.syy) : -1 ≤ c.val ∧ c.val ≤ 1 := by
  have hABr : (0:ℝ) < (c.sxx : ℝ) * (c.syy : ℝ) := by
    have h5 : (0:ℚ) < c.sxx * c.syy := mul_pos hA hB
    exact_mod_cast h5
  have hsqrt : 0 < Real.sqrt ((c.sxx : ℝ) * (c.syy : ℝ)) := Real.sqrt_pos.mpr hABr
  have hsq : ((c.sxy : ℝ)) ^ 2 ≤ (c.sxx : ℝ) * (c.syy : ℝ) := by exact_mod_cast hcs
  have habs : |(c.sxy : ℝ)| ≤ Real.sqrt ((c.sxx : ℝ) * (c.syy : ℝ)) := by
    have h8 := Real.sqrt_le_sqrt hsq
    rwa [Real.sqrt_sq_eq_abs] at h8
  have hdiv : |(c.sxy : ℝ) / Real.sqrt ((c.sxx : ℝ) * (c.syy : ℝ))| ≤ 1 := by
    rw [abs_div, abs_of_nonneg (Real.sqrt_nonneg _)]
    exact (div_le_one hsqrt).mpr habs
  exact abs_le.mp hdiv

theorem corrOf_val_bound (xs ys : List (Option ℚ)) (c : Coef)
    (h : corrOf xs ys = some c) : -1 ≤ c.val ∧ c.val ≤ 1 := by
  rw [corrOf] at h
  by_cases hz : ((centeredPairs xs ys).map fun p => p.1 ^ 2).sum = 0 ∨
      ((centeredPairs xs ys).map fun p => p.2 ^ 2).sum = 0
  · rw [if_pos hz] at h
    cases h
  · rw [if_neg hz] at h
    push_neg at hz
    obtain ⟨hA, hB⟩ := hz
    have hAnn := sum_map_sq_nonneg (centeredPairs xs ys) (fun p => p.1)
    have hBnn := sum_map_sq_nonneg (centeredPairs xs ys) (fun p => p.2)
    have hApos : 0 < ((centeredPairs xs ys).map fun p => p.1 ^ 2).sum := by
      rcases hAnn.lt_or_eq with hlt | heq
      · exact hlt
      · exact absurd heq.symm hA
    have hBpos : 0 < ((centeredPairs xs ys).map fun p => p.2 ^ 2).sum := by
      rcases hBnn.lt_or_eq with hlt | heq
      · exact hlt
      · exact absurd heq.symm hB
    obtain rfl := Option.some.inj h
    exact Coef.val_bound _ hApos hBpos (list_cauchy_schwarz (centeredPairs xs ys))

/-! ## Column-key bookkeeping -/

theorem insertIfNew_nodup (acc : List String) (k : String) (h : acc.Nodup) :
    (insertIfNew acc k).Nodup := by
  rw [insertIfNew]
  split
  · exact h
  · rename_i hk
    rw [List.nodup_append]
    refine ⟨h, List.nodup_singleton _, ?_⟩
    intro a ha hb
    rw [List.mem_singleton] at hb
    subst hb
    exact hk ha

theorem foldl_insertIfNew_nodup (l : List (String × String)) (acc : List String)
    (h : acc.Nodup) : (l.foldl (fun a p => insertIfNew a p.1) acc).Nodup := by
  induction l generalizing acc with
  | nil => exact h
  | cons p t ih => exact ih _ (insertIfNew_nodup acc p.1 h)

theorem dfColumnNames_nodup (rows : List Row) : (dfColumnNames rows).Nodup := by
  rw [dfColumnNames]
  have : ∀ acc : List String, acc.Nodup →
      (rows.foldl (fun acc r => r.foldl (fun a p => insertIfNew a p.1) acc) acc).Nodup := by
    induction rows with
    | nil => intro acc h; exact h
    | cons r t ih => intro acc h; exact ih _ (foldl_insertIfNew_nodup r acc h)
  exact this [] List.nodup_nil

theorem convertDF_keys (rows : List Row) :
    (convertDF rows).map Prod.fst = dfColumnNames rows := by
  rw [convertDF, List.map_map, buildDF, List.map_map]
  simp [Function.comp_def]

theorem numericCols_keys_sublist (cols : List (String × ConvCol)) :
    ((numericColsOf cols).map Prod.fst).Sublist (cols.map Prod.fst) := by
  induction cols with
  | nil => simp [numericColsOf]
  | cons p t ih =>
      rw [numericColsOf, List.filterMap_cons]
      cases hp : p.2 with
      | nums vs =>
          simp only [List.map_cons]
          exact (List.Sublist.cons₂ p.1 (by rw [numericColsOf] at ih; exact ih))
      | strs vs =>
          simp only [List.map_cons]
          exact List.Sublist.cons p.1 (by rw [numericColsOf] at ih; exact ih)

theorem numericCols_keys_nodup (rows : List Row) :
    ((numericColsOf (convertDF rows)).map Prod.fst).Nodup := by
  have hnd : ((convertDF rows).map Prod.fst).Nodup := by
    rw [convertDF_keys]
    exact dfColumnNames_nodup rows
  exact List.Nodup.sublist (numericCols_keys_sublist (convertDF rows)) hnd

theorem lookup_of_mem {β : Type} (l : List (String × β)) (a : String) (b : β)
    (hnd : (l.map Prod.fst).Nodup) (hmem : (a, b) ∈ l) : l.lookup a = some b := by
  induction l with
  | nil => cases hmem
  | cons p t ih =>
      rw [List.map_cons, List.nodup_cons] at hnd
      rcases List.mem_cons.mp hmem with heq | hmem'
      · cases heq
        simp [List.lookup]
      · have hne : (a == p.1) = false := by
          simp only [beq_eq_false_iff_ne, ne_eq]
          rintro rfl
          exact hnd.1 (List.mem_map.mpr ⟨_, hmem', rfl⟩)
        rw [List.lookup, hne]
        exact ih hnd.2 hmem'

theorem corrMatrix_at (nums : List (String × List (Option ℚ)))
    (hnd : (nums.map Prod.fst).Nodup) (pa pb : String × List (Option ℚ))
    (ha : pa ∈ nums) (hb : pb ∈ nums) :
    corrAt (corrMatrix nums) pa.1 pb.1 = some (corrOf pb.2 pa.2) := by
  rw [corrAt, corrMatrix]
  have h1 : (nums.map fun p => (p.1, nums.map fun q => (q.1, corrOf q.2 p.2))).lookup pa.1 =
      some (nums.map fun q => (q.1, corrOf q.2 pa.2)) := by
    apply lookup_of_mem
    · rw [List.map_map]
      simpa [Function.comp_def] using hnd
    · exact List.mem_map.mpr ⟨pa, ha, rfl⟩
  rw [h1]
  rw [Option.some_bind]
  apply lookup_of_mem
  · rw [List.map_map]
    simpa [Function.comp_def] using hnd
  · exact List.mem_map.mpr ⟨pb, hb, rfl⟩

/-! ## C10: correlation matrix algebra -/

/-- C10, counterexample: `a = 1,1,2` and `b = 5,6,absent` are two numeric
columns, each of nonzero variance over its present values, yet the
pairwise-complete subset for `(a, b)` leaves `a` constant, so the produced
matrix holds an undefined (NaN) coefficient — not a value in `[-1, 1]`. -/
theorem pairwise_nan_counterexample :
    2 ≤ (numericColsOf (convertDF rowsPairwise)).length ∧
    (∀ p ∈ numericColsOf (convertDF rowsPairwise),
        centeredSS (p.2.filterMap id) ≠ 0) ∧
    ∃ r : PyAnalysis, analyzeDataPy rowsPairwise = Except.ok r ∧
      corrAt r.correlations "a" "b" = some none := by
  have hnums : numericColsOf (convertDF rowsPairwise) =
      [("a", [some 1, some 1, some 2]), ("b", [some 5, some 6, none])] := by decide
  have hco : corrOf [some (5:ℚ), some 6, none] [some 1, some 1, some 2] = none := by
    norm_num [corrOf, centeredPairs, pairComplete, qmean]
  refine ⟨by rw [hnums]; decide, ?_, ?_⟩
  · intro p hp
    rw [hnums] at hp
    rcases List.mem_cons.mp hp with rfl | hp
    · norm_num [centeredSS, qmean, List.filterMap_cons, List.filterMap_nil, id]
    · rcases List.mem_cons.mp hp with rfl | hp
      · norm_num [centeredSS, qmean, List.filterMap_cons, List.filterMap_nil, id]
      · cases hp
  · have hpy : analyzeDataPy rowsPairwise = Except.ok
        { summary := describeDF (convertDF rowsPairwise)
          column_types := (convertDF rowsPairwise).map fun p => (p.1, p.2.dtype)
          missing_values := (convertDF rowsPairwise).map fun p => (p.1, p.2.isnullCount)
          correlations :=
            if 1 < (numericColsOf (convertDF rowsPairwise)).length then
              corrMatrix (numericColsOf (convertDF rowsPairwise))
            else [] } := by
      rw [analyzeDataPy]
      simp only [show (convertDF rowsPairwise).isEmpty = false from by decide,
        Bool.false_eq_true, if_false]
    refine ⟨_, hpy, ?_⟩
    show corrAt (if 1 < (numericColsOf (convertDF rowsPairwise)).length then
        corrMatrix (numericColsOf (convertDF rowsPairwise)) else []) "a" "b" = some none
    rw [if_pos (by rw [hnums]; decide)]
    have hmem_a : (("a", [some 1, some 1, some 2]) :
        String × List (Option ℚ)) ∈ numericColsOf (convertDF rowsPairwise) := by
      rw [hnums]; decide
    have hmem_b : (("b", [some 5, some 6, none]) :
        String × List (Option ℚ)) ∈ numericColsOf (convertDF rowsPairwise) := by
      rw [hnums]; decide
    have := corrMatrix_at (numericColsOf (convertDF rowsPairwise))
      (numericCols_keys_nodup rowsPairwise)
      ("a", [some 1, some 1, some 2]) ("b", [some 5, some 6, none]) hmem_a hmem_b
    rw [this, hco]

/-- C10, amended: whenever the analysis succeeds on a table with at least
two numeric columns each of nonzero variance over its present values, the
correlation matrix is symmetric in value, carries coefficient 1.0 at every
diagonal entry, and every *defined* coefficient lies in `[-1, 1]`; however
off-diagonal coefficients may be undefined (NaN) when a pairwise-complete
subset is constant, so not every coefficient is a number in `[-1, 1]`. -/
theorem correlation_matrix_policy (rows : List Row) (r : PyAnalysis)
    (hok : analyzeDataPy rows = Except.ok r)
    (h2 : 2 ≤ (numericColsOf (convertDF rows)).length)
    (hv : ∀ p ∈ numericColsOf (convertDF rows), centeredSS (p.2.filterMap id) ≠ 0) :
    (∀ pa ∈ numericColsOf (convertDF rows), ∀ pb ∈ numericColsOf (convertDF rows),
      ∃ u v : Option Coef,
        corrAt r.correlations pa.1 pb.1 = some u ∧
        corrAt r.correlations pb.1 pa.1 = some v ∧
        ((u = none ∧ v = none) ∨
          ∃ cu cv : Coef, u = some cu ∧ v = some cv ∧ cu.val = cv.val)) ∧
    (∀ pa ∈ numericColsOf (convertDF rows),
      ∃ c : Coef, corrAt r.correlations pa.1 pa.1 = some (some c) ∧ c.val = 1) ∧
    (∀ prow ∈ r.correlations, ∀ q ∈ prow.2, ∀ c : Coef, q.2 = some c →
      -1 ≤ c.val ∧ c.val ≤ 1) := by
  have hshape := analyzeDataPy_ok_shape rows r hok
  have hrc : r.correlations = corrMatrix (numericColsOf (convertDF rows)) := by
    rw [hshape]
    exact if_pos (by omega)
  have hnd := numericCols_keys_nodup rows
  refine ⟨?_, ?_, ?_⟩
  · intro pa ha pb hb
    refine ⟨corrOf pb.2 pa.2, corrOf pa.2 pb.2,
      by rw [hrc]; exact corrMatrix_at _ hnd pa pb ha hb,
      by rw [hrc]; exact corrMatrix_at _ hnd pb pa hb ha, ?_⟩
    have hsym := corrOf_symm pa.2 pb.2
    cases hco : corrOf pa.2 pb.2 with
    | none =>
        left
        exact ⟨by rw [hsym, hco]; rfl, rfl⟩
    | some c =>
        right
        refine ⟨⟨c.sxy, c.syy, c.sxx⟩, c, by rw [hsym, hco]; rfl, rfl, ?_⟩
        exact Coef.val_flip c.sxy c.sxx c.syy
  · intro pa ha
    obtain ⟨s, hcs, hspos⟩ := corrOf_self pa.2 (hv pa ha)
    refine ⟨⟨s, s, s⟩, ?_, Coef.val_diag s hspos⟩
    rw [hrc, corrMatrix_at _ hnd pa pa ha ha, hcs]
  · intro prow hprow q hq c hc
    rw [hrc, corrMatrix] at hprow
    obtain ⟨pa, ha, rfl⟩ := List.mem_map.mp hprow
    obtain ⟨pb, hb, rfl⟩ := List.mem_map.mp hq
    exact corrOf_val_bound pb.2 pa.2 c hc

/-- C10, witness: on `a = 1,2,3`, `b = 2,4,6` the diagonal entry at `a`
is a defined coefficient of value 1. -/
theorem correlation_matrix_policy_witness :
    ∃ r : PyAnalysis, analyzeDataPy rowsAB = Except.ok r ∧
      ∃ c : Coef, corrAt r.correlations "a" "a" = some (some c) ∧ c.val = 1 := by
  have hnums : numericColsOf (convertDF rowsAB) =
      [("a", [some 1, some 2, some 3]), ("b", [some 2, some 4, some 6])] := by decide
  have hpy : analyzeDataPy rowsAB = Except.ok _ := rfl
  have hv : ∀ p ∈ numericColsOf (convertDF rowsAB), centeredSS (p.2.filterMap id) ≠ 0 := by
    intro p hp
    rw [hnums] at hp
    rcases List.mem_cons.mp hp with rfl | hp
    · norm_num [centeredSS, qmean, List.filterMap_cons, List.filterMap_nil, id]
    · rcases List.mem_cons.mp hp with rfl | hp
      · norm_num [centeredSS, qmean, List.filterMap_cons, List.filterMap_nil, id]
      · cases hp
  obtain ⟨-, hdiag, -⟩ := correlation_matrix_policy rowsAB _ hpy
    (by rw [hnums]; decide) hv
  obtain ⟨c, hcc, hval⟩ := hdiag ("a", [some 1, some 2, some 3]) (by rw [hnums]; decide)
  exact ⟨_, hpy, c, hcc, hval⟩
